import Mathlib

/-!
Cyberpixie desktop application: file reader and bootstrap.

A shallow embedding of `application/filesreader.cpp` (`FilesReader::readFile`)
and of `old/application/main.cpp` (`main`), together with the properties
stated about them.

The Qt runtime the two files are written against is not part of the
repository.  What the code uses of it is represented as follows.

* The locator resolution `QQmlFile::urlToLocalFileOrQrc` and the answer of the
  operating system / resource system to a read-only open are components of
  the `World` the code runs in; every theorem quantifies over them.
* `QString::arg`, `tr`, signal emission, queued connections and the
  `exec` / `exit` pair are modelled after their documented behaviour.
* `QQmlFile.urlToLocalFileOrQrc` is the locator resolution of the runtime
  itself, over the `QUrl` accessors `scheme`, `authority` and `path`; the
  statement about embedded resources is made in worlds that resolve with it.
-/

namespace Cyberpixie

/-! ## Basic Qt value types -/

/-- Text value (`QString`). -/
abbrev QString := String

/-- Byte sequence (`QByteArray`): a list of octets. -/
abbrev QByteArray := List (Fin 256)

/-- Resource locator (`QUrl`), compared by its textual form. -/
structure QUrl where
  text : String
deriving DecidableEq

/-- Identity of a live object (a non-null `QObject *`); a possibly null
pointer is an `Option QObject`. -/
abbrev QObject := Nat

/-! ## `QString::arg` -/

/-- Value of a decimal digit character (`QChar::digitValue`, ASCII digits). -/
def digitValue (c : Char) : Option Nat :=
  if '0' ≤ c ∧ c ≤ '9' then some (c.toNat - '0'.toNat) else none

/-- One piece of a template: a literal character, or a place marker `%n`
together with the characters it was written with. -/
inductive Piece where
  | lit (c : Char)
  | marker (n : Nat) (src : List Char)

/-- Scanner state while cutting a template into pieces: in plain text, after a
percent sign, after a percent sign and the locale flag `L`, or after the first
digit of a place marker (with the characters read for it so far). -/
inductive Scan where
  | plain
  | percent
  | percentL
  | digit (d : Nat) (src : List Char)

/-- Cuts a template into literal characters and place markers.  A place marker
is a percent sign, optionally the flag `L`, and then one digit, or two digits
when a second digit follows directly. -/
def pieces : Scan → List Char → List Piece
  | .plain, [] => []
  | .percent, [] => [.lit '%']
  | .percentL, [] => [.lit '%', .lit 'L']
  | .digit d src, [] => [.marker d src]
  | .plain, c :: cs =>
      if c = '%' then pieces .percent cs else .lit c :: pieces .plain cs
  | .percent, c :: cs =>
      if c = 'L' then pieces .percentL cs
      else
        match digitValue c with
        | some d => pieces (.digit d ['%', c]) cs
        | none =>
            if c = '%' then .lit '%' :: pieces .percent cs
            else .lit '%' :: .lit c :: pieces .plain cs
  | .percentL, c :: cs =>
      match digitValue c with
      | some d => pieces (.digit d ['%', 'L', c]) cs
      | none =>
          if c = '%' then .lit '%' :: .lit 'L' :: pieces .percent cs
          else .lit '%' :: .lit 'L' :: .lit c :: pieces .plain cs
  | .digit d src, c :: cs =>
      match digitValue c with
      | some d2 => .marker (10 * d + d2) (src ++ [c]) :: pieces .plain cs
      | none =>
          if c = '%' then .marker d src :: pieces .percent cs
          else .marker d src :: .lit c :: pieces .plain cs

/-- The lowest place marker number occurring among the pieces. -/
def lowestMarker : List Piece → Option Nat
  | [] => none
  | .lit _ :: ps => lowestMarker ps
  | .marker n _ :: ps =>
      match lowestMarker ps with
      | none => some n
      | some m => some (min n m)

/-- Writes the pieces back, putting `a` for every marker numbered `n`. -/
def render (n : Nat) (a : List Char) : List Piece → List Char
  | [] => []
  | .lit c :: ps => c :: render n a ps
  | .marker m src :: ps =>
      if m = n then a ++ render n a ps else src ++ render n a ps

/-- The one-argument `QString::arg`: every occurrence of the lowest numbered
place marker of the template is replaced by `a`; a template without a place
marker is returned as it is. -/
def QString.arg (template a : QString) : QString :=
  let ps := pieces .plain template.data
  match lowestMarker ps with
  | none => template
  | some n => String.mk (render n a.data ps)

/-- Translation lookup (`QObject::tr`).  The application installs no
translator, so the source text is returned. -/
def tr (sourceText : QString) : QString := sourceText

/-! ## Observable effects and the world -/

/-- Effects of the application that an outside observer can see. -/
inductive Effect where
  /-- The signal `FilesReader::error(QString)` was emitted with this text. -/
  | error (text : QString)
  /-- `QCoreApplication::exit(returnCode)` was called. -/
  | exit (returnCode : Int)
deriving DecidableEq

/-- Answer to opening a path read-only: the bytes a subsequent `readAll`
delivers, or the description of why the open attempt failed. -/
abbrev FileSystem := QString → Except QString QByteArray

/-- The state a call of the reader runs in. -/
structure World where
  /-- Locator resolution of the UI runtime (`QQmlFile::urlToLocalFileOrQrc`). -/
  urlToLocalFileOrQrc : QUrl → QString
  /-- Local files and embedded resources, by path. -/
  fs : FileSystem
  /-- The effects produced so far, oldest first. -/
  effects : List Effect

/-- Records one more effect (`emit`, or a call into the application object). -/
def World.emit (w : World) (e : Effect) : World :=
  { w with effects := w.effects ++ [e] }

/-! ## `QFile` -/

/-- A file object: its name, whether it is open, the description of its last
error, and the bytes available for reading once it is open. -/
structure QFile where
  fileName : QString
  isOpen : Bool
  errorString : QString
  available : QByteArray

/-- The constructor `QFile(name)`: a closed file object. -/
def QFile.new (name : QString) : QFile :=
  { fileName := name, isOpen := false, errorString := "", available := [] }

/-- The call `open(QFile::ReadOnly)`: the updated file object; its `isOpen`
is the value `open` returns. -/
def QFile.open (file : QFile) (fs : FileSystem) : QFile :=
  match fs file.fileName with
  | .ok bytes => { file with isOpen := true, available := bytes }
  | .error description => { file with isOpen := false, errorString := description }

/-- The call `readAll()`: everything available, nothing for a closed file. -/
def QFile.readAll (file : QFile) : QByteArray :=
  if file.isOpen then file.available else []

/-! ## `FilesReader` -/

/-- The class `FilesReader`: a `QObject` without data members of its own. -/
structure FilesReader where
  parent : Option QObject
deriving DecidableEq

/-- The constructor `FilesReader(parent)`. -/
def FilesReader.new (parent : Option QObject) : FilesReader :=
  { parent := parent }

/-- The method `FilesReader::readFile(QUrl url) const`: the returned buffer
and the world after the call.  The method is `const`, so the reader is an
immutable argument and no updated reader is part of the result. -/
def FilesReader.readFile (_self : FilesReader) (url : QUrl) (w : World) :
    QByteArray × World :=
  let file := (QFile.new (w.urlToLocalFileOrQrc url)).open w.fs
  if !file.isOpen then
    ([], w.emit (.error (QString.arg (tr "Could not open file. '%1'") file.errorString)))
  else
    let data := file.readAll
    (data, w)

/-- The notifications a call adds to the world: what follows the effects that
were already there. -/
def FilesReader.emitted (self : FilesReader) (url : QUrl) (w : World) : List Effect :=
  (self.readFile url w).2.effects.drop w.effects.length

/-! ## The bootstrap -/

/-- The macro `QT_VERSION_CHECK(major, minor, patch)`. -/
def QT_VERSION_CHECK (major minor patch : Nat) : Nat :=
  (major <<< 16) ||| (minor <<< 8) ||| patch

/-- A slot connected to `QQmlApplicationEngine::objectCreated(QObject *, const QUrl &)`:
the effects of one invocation. -/
abbrev Slot := Option QObject → QUrl → List Effect

/-- The lambda `[url](QObject *obj, const QUrl &objUrl)` connected in `main`. -/
def observer (url : QUrl) : Slot := fun obj objUrl =>
  if obj.isNone && url == objUrl then [.exit (-1)] else []

/-- The statements of `main`, for recording the order they run in. -/
inductive Step where
  | registerTypes
  | enableHighDpiScaling
  | constructApplication
  | constructReader
  | constructEngine
  | connectObserver
  | setContextProperty (name : String)
  | load (url : QUrl)
  | exec
deriving DecidableEq

/-- An event in the application's queue: the queued invocation of a connected
slot, or any other event, given by the effects of its handlers. -/
inductive Event where
  | call (slot : Slot) (obj : Option QObject) (objUrl : QUrl)
  | other (effects : List Effect)

/-- Delivers an event: the effects of its handlers. -/
def Event.handle : Event → List Effect
  | .call slot obj objUrl => slot obj objUrl
  | .other effects => effects

/-- The return code requested by a handler run: that of its last call of
`QCoreApplication::exit`, if it made one. -/
def exitRequest (effects : List Effect) : Option Int :=
  (effects.filterMap fun e =>
    match e with
    | .exit returnCode => some returnCode
    | .error _ => none).getLast?

/-- The state of the process while `main` runs. -/
structure Process where
  typesRegistered : Bool
  highDpiScaling : Bool
  application : Bool
  reader : Option FilesReader
  engine : Bool
  /-- Slots connected to `objectCreated`, all with `Qt::QueuedConnection`. -/
  observers : List Slot
  /-- Objects published in the root context, by name. -/
  contextProperties : List (String × FilesReader)
  rootObjects : List QObject
  /-- Posted events that were not delivered yet. -/
  queue : List Event
  effects : List Effect
  /-- Number of events delivered by the event loop. -/
  handled : Nat
  steps : List Step

/-- What `main` does not decide itself: the Qt version it is compiled against,
what the engine makes of a UI definition (`none`: it cannot be instantiated),
and the events that arrive once the event loop runs, in the order they
arrive. -/
structure Platform where
  qtVersion : Nat
  instantiate : QUrl → Option QObject
  incoming : List Event

/-- The process when `main` is entered. -/
def Process.initial : Process :=
  { typesRegistered := false, highDpiScaling := false, application := false,
    reader := none, engine := false, observers := [], contextProperties := [],
    rootObjects := [], queue := [], effects := [], handled := 0, steps := [] }

/-- The call `register_cyberpixie_qml_types()`. -/
def Process.register_cyberpixie_qml_types (s : Process) : Process :=
  { s with typesRegistered := true, steps := s.steps ++ [.registerTypes] }

/-- The call `QCoreApplication::setAttribute(Qt::AA_EnableHighDpiScaling)`. -/
def Process.setAttributeEnableHighDpiScaling (s : Process) : Process :=
  { s with highDpiScaling := true, steps := s.steps ++ [.enableHighDpiScaling] }

/-- The declaration `QGuiApplication app(argc, argv)`. -/
def Process.newQGuiApplication (s : Process) : Process :=
  { s with application := true, steps := s.steps ++ [.constructApplication] }

/-- The declaration `FilesReader reader`. -/
def Process.newFilesReader (s : Process) (reader : FilesReader) : Process :=
  { s with reader := some reader, steps := s.steps ++ [.constructReader] }

/-- The declaration `QQmlApplicationEngine engine`. -/
def Process.newQQmlApplicationEngine (s : Process) : Process :=
  { s with engine := true, steps := s.steps ++ [.constructEngine] }

/-- The call `QObject::connect(&engine, &QQmlApplicationEngine::objectCreated, &app, slot,
Qt::QueuedConnection)`. -/
def Process.connectObjectCreated (s : Process) (slot : Slot) : Process :=
  { s with observers := s.observers ++ [slot], steps := s.steps ++ [.connectObserver] }

/-- The call `engine.rootContext()->setContextProperty(name, &reader)`. -/
def Process.setContextProperty (s : Process) (name : String) (reader : FilesReader) :
    Process :=
  { s with contextProperties := s.contextProperties ++ [(name, reader)],
           steps := s.steps ++ [.setContextProperty name] }

/-- The call `engine.load(url)`: the engine instantiates the definition and
emits `objectCreated(object, url)`, with a null object when that failed.  The
slots connected at that moment are queued connections, so one invocation of
each is posted to the queue. -/
def Process.load (s : Process) (instantiate : QUrl → Option QObject) (url : QUrl) :
    Process :=
  let obj := instantiate url
  { s with rootObjects := s.rootObjects ++ obj.toList,
           queue := s.queue ++ s.observers.map (fun slot => Event.call slot obj url),
           steps := s.steps ++ [.load url] }

/-- The event loop: events are delivered in order; once a handler has called
`QCoreApplication::exit` the loop is left with the requested return code and
the remaining events stay undelivered.  When no event is left the loop waits
and is never left (`none`). -/
def eventLoop : List Event → Process → Option Int × Process
  | [], s => (none, { s with queue := [] })
  | ev :: rest, s =>
      let out := ev.handle
      let s := { s with effects := s.effects ++ out, handled := s.handled + 1 }
      match exitRequest out with
      | some returnCode => (some returnCode, { s with queue := rest })
      | none => eventLoop rest s

/-- The call `app.exec()`: runs the event loop over the posted events followed
by the incoming ones; the value is what `exec` returns. -/
def Process.exec (s : Process) (incoming : List Event) : Option Int × Process :=
  eventLoop (s.queue ++ incoming) { s with steps := s.steps ++ [.exec] }

/-- The function `main`: its return value (`none` when the event loop is never
left) and the process state at that point. -/
def main (p : Platform) : Option Int × Process :=
  let s := Process.initial.register_cyberpixie_qml_types
  let s := if p.qtVersion < QT_VERSION_CHECK 6 0 0 then s.setAttributeEnableHighDpiScaling else s
  let s := s.newQGuiApplication
  let reader := FilesReader.new none
  let s := s.newFilesReader reader
  let s := s.newQQmlApplicationEngine
  let url : QUrl := ⟨"qrc:/main.qml"⟩
  let s := s.connectObjectCreated (observer url)
  let s := s.setContextProperty "fileReader" reader
  let s := s.load p.instantiate url
  s.exec p.incoming

/-- Step `a` runs before step `b` in a recorded run. -/
def Step.before (a b : Step) (steps : List Step) : Prop :=
  a ∈ steps ∧ b ∈ steps ∧ steps.indexOf a < steps.indexOf b

instance (a b : Step) (steps : List Step) : Decidable (Step.before a b steps) := by
  unfold Step.before
  infer_instance

/-- The order of the bootstrap as the specification lists it (steps 3 to 7):
reader, engine, load, observer, publication, event loop. -/
def specOrder (steps : List Step) : Prop :=
  Step.before .constructReader .constructEngine steps ∧
  Step.before .constructEngine (.load ⟨"qrc:/main.qml"⟩) steps ∧
  Step.before (.load ⟨"qrc:/main.qml"⟩) .connectObserver steps ∧
  Step.before .connectObserver (.setContextProperty "fileReader") steps ∧
  Step.before (.setContextProperty "fileReader") .exec steps

/-- The order of the bootstrap in `main`: reader, engine, observer,
publication, load, event loop. -/
def codeOrder (steps : List Step) : Prop :=
  Step.before .constructReader .constructEngine steps ∧
  Step.before .constructEngine .connectObserver steps ∧
  Step.before .connectObserver (.setContextProperty "fileReader") steps ∧
  Step.before (.setContextProperty "fileReader") (.load ⟨"qrc:/main.qml"⟩) steps ∧
  Step.before (.load ⟨"qrc:/main.qml"⟩) .exec steps

instance (steps : List Step) : Decidable (specOrder steps) := by
  unfold specOrder
  infer_instance

instance (steps : List Step) : Decidable (codeOrder steps) := by
  unfold codeOrder
  infer_instance

/-! ## Locator resolution of the UI runtime -/

/-- Whether a character may occur in a scheme name. -/
def isSchemeChar (c : Char) : Bool :=
  c.isAlphanum || c == '+' || c == '-' || c == '.'

/-- The characters in front of the first colon of a locator, when they form a
scheme name: a letter followed by letters, digits, `+`, `-` or `.`. -/
def schemeChars (cs : List Char) : Option (List Char) :=
  let front := cs.takeWhile (fun c => c != ':')
  match front with
  | [] => none
  | c :: _ =>
      if front.length < cs.length && c.isAlpha && front.all isSchemeChar then some front
      else none

/-- The accessor `QUrl::scheme()`: the scheme name in lower case, the empty
text for a locator without scheme. -/
def QUrl.scheme (url : QUrl) : QString :=
  match schemeChars url.text.data with
  | some front => String.mk (front.map Char.toLower)
  | none => ""

/-- What follows the scheme and its colon. -/
def QUrl.afterScheme (url : QUrl) : List Char :=
  match schemeChars url.text.data with
  | some front => url.text.data.drop (front.length + 1)
  | none => url.text.data

/-- Whether a character ends the authority of a locator. -/
def endsAuthority (c : Char) : Bool := c == '/' || c == '?' || c == '#'

/-- Whether a character ends the path of a locator. -/
def endsPath (c : Char) : Bool := c == '?' || c == '#'

/-- The accessor `QUrl::authority()`: what stands between a leading `//` and
the path; the empty text when there is no leading `//`. -/
def QUrl.authority (url : QUrl) : QString :=
  match url.afterScheme with
  | '/' :: '/' :: rest => String.mk (rest.takeWhile (fun c => !endsAuthority c))
  | _ => ""

/-- The path of a locator as it is written: what follows the authority, up to
the query or fragment. -/
def QUrl.writtenPath (url : QUrl) : List Char :=
  match url.afterScheme with
  | '/' :: '/' :: rest =>
      (rest.dropWhile (fun c => !endsAuthority c)).takeWhile (fun c => !endsPath c)
  | rest => rest.takeWhile (fun c => !endsPath c)

/-- Value of a hexadecimal digit. -/
def hexValue (c : Char) : Option Nat :=
  if '0' ≤ c ∧ c ≤ '9' then some (c.toNat - '0'.toNat)
  else if 'a' ≤ c ∧ c ≤ 'f' then some (c.toNat - 'a'.toNat + 10)
  else if 'A' ≤ c ∧ c ≤ 'F' then some (c.toNat - 'A'.toNat + 10)
  else none

/-- A unit of a written path: a character standing for itself, or an octet
written as a percent sign and two hexadecimal digits. -/
inductive PathUnit where
  | plain (c : Char)
  | octet (value : Nat) (hi lo : Char)

/-- Cuts a written path into its units; `skip` counts the characters that
belong to the escape just read. -/
def pathUnits (skip : Nat) : List Char → List PathUnit
  | [] => []
  | c :: cs =>
      match skip with
      | k + 1 => pathUnits k cs
      | 0 =>
          if c = '%' then
            match cs with
            | hi :: lo :: _ =>
                match hexValue hi, hexValue lo with
                | some a, some b => .octet (16 * a + b) hi lo :: pathUnits 2 cs
                | _, _ => .plain c :: pathUnits 0 cs
            | _ => .plain c :: pathUnits 0 cs
          else .plain c :: pathUnits 0 cs

/-- The payload of a UTF-8 continuation octet. -/
def continuation : PathUnit → Option Nat
  | .octet value _ _ => if 0x80 ≤ value ∧ value < 0xC0 then some (value - 0x80) else none
  | .plain _ => none

/-- The character encoded by the lead octet `value` and the units that follow
it, with the number of units used after the lead octet; `none` when they are
not a well-formed UTF-8 sequence of two to four octets. -/
def multiOctet (value : Nat) (us : List PathUnit) : Option (Char × Nat) :=
  if 0xC2 ≤ value ∧ value < 0xE0 then
    match us with
    | u1 :: _ =>
        match continuation u1 with
        | some c1 => some (Char.ofNat ((value - 0xC0) * 64 + c1), 1)
        | none => none
    | _ => none
  else if 0xE0 ≤ value ∧ value < 0xF0 then
    match us with
    | u1 :: u2 :: _ =>
        match continuation u1, continuation u2 with
        | some c1, some c2 =>
            let code := (value - 0xE0) * 4096 + c1 * 64 + c2
            if 0x800 ≤ code ∧ ¬ (0xD800 ≤ code ∧ code < 0xE000) then some (Char.ofNat code, 2)
            else none
        | _, _ => none
    | _ => none
  else if 0xF0 ≤ value ∧ value < 0xF5 then
    match us with
    | u1 :: u2 :: u3 :: _ =>
        match continuation u1, continuation u2, continuation u3 with
        | some c1, some c2, some c3 =>
            let code := (value - 0xF0) * 262144 + c1 * 4096 + c2 * 64 + c3
            if 0x10000 ≤ code ∧ code < 0x110000 then some (Char.ofNat code, 3) else none
        | _, _, _ => none
    | _ => none
  else none

/-- Decodes the units of a path: an escaped octet below 0x80 is the character
with that code, a well-formed UTF-8 sequence of escaped octets is the
character it encodes, and any other escape stays as it is written; `skip`
counts the units that belong to the sequence just decoded. -/
def decodeUnits (skip : Nat) : List PathUnit → List Char
  | [] => []
  | u :: us =>
      match skip with
      | k + 1 => decodeUnits k us
      | 0 =>
          match u with
          | .plain c => c :: decodeUnits 0 us
          | .octet value hi lo =>
              if value < 0x80 then Char.ofNat value :: decodeUnits 0 us
              else
                match multiOctet value us with
                | some (c, used) => c :: decodeUnits used us
                | none => '%' :: hi :: lo :: decodeUnits 0 us

/-- The accessor `QUrl::path()`: the path of the locator with its percent
escapes decoded. -/
def QUrl.path (url : QUrl) : QString :=
  String.mk (decodeUnits 0 (pathUnits 0 url.writtenPath))

/-- The accessor `QUrl::toLocalFile()` on a Unix build: the path of a `file`
locator, with `//` and the host in front when it names a host; the empty text
for every other scheme. -/
def QUrl.toLocalFile (url : QUrl) : QString :=
  if url.scheme = "file" then
    if url.authority = "" then url.path else "//" ++ url.authority ++ url.path
  else ""

/-- The function `QQmlFile::urlToLocalFileOrQrc` of the UI runtime on a desktop
build: a `qrc` locator without authority goes to the embedded resource path,
a colon followed by the path of the locator; a `qrc` locator with an authority
names no resource and goes to the empty path; every other locator goes to its
local file. -/
def QQmlFile.urlToLocalFileOrQrc (url : QUrl) : QString :=
  if url.scheme = "qrc" then
    if url.authority = "" then ":" ++ url.path else ""
  else url.toLocalFile

/-! ## Sample world -/

/-- A locator resolution in the manner of the UI runtime: `qrc:` locators go to
the resource namespace `:`, `file://` locators to the local path, anything
else to the empty path. -/
def sampleResolve (url : QUrl) : QString :=
  if "qrc:".data.isPrefixOf url.text.data then String.mk (':' :: url.text.data.drop 4)
  else if "file://".data.isPrefixOf url.text.data then String.mk (url.text.data.drop 7)
  else ""

/-- A small file system: a five byte file, an empty file, a file that may not
be read, and one embedded resource. -/
def sampleFs : FileSystem := fun path =>
  if path = "/tmp/hello.txt" then .ok [0x68, 0x65, 0x6C, 0x6C, 0x6F]
  else if path = "/tmp/empty" then .ok []
  else if path = "/root/secret" then .error "Permission denied"
  else if path = ":/main.qml" then .ok [0x49, 0x74, 0x65, 0x6D, 0x7B, 0x7D]
  else .error "No such file or directory"

/-- A world with the sample resolution and file system and no effects yet. -/
def sampleWorld : World :=
  { urlToLocalFileOrQrc := sampleResolve, fs := sampleFs, effects := [] }

/-- The reader of the sample runs. -/
def sampleReader : FilesReader := FilesReader.new none


/-- A world with the locator resolution of the UI runtime, the sample file
system and no effects yet. -/
def qtWorld : World :=
  { urlToLocalFileOrQrc := QQmlFile.urlToLocalFileOrQrc, fs := sampleFs, effects := [] }

/-- A platform on which the UI definition cannot be instantiated; two further
events are waiting, the second of which would leave the loop with code 0. -/
def failingPlatform : Platform :=
  { qtVersion := QT_VERSION_CHECK 5 15 2, instantiate := fun _ => none,
    incoming := [.other [], .other [.exit 0]] }

/-- A platform on which the UI definition is instantiated; the window is
closed later, which leaves the loop with code 0. -/
def workingPlatform : Platform :=
  { qtVersion := QT_VERSION_CHECK 6 2 0,
    instantiate := fun url => if url = ⟨"qrc:/main.qml"⟩ then some 1 else none,
    incoming := [.other [.error "Could not open file. 'No such file or directory'"],
                 .other [.exit 0]] }

/-! ## Basic lemmas -/

theorem arg_template (e : QString) :
    QString.arg (tr "Could not open file. '%1'") e = "Could not open file. '" ++ e ++ "'" := by
  apply String.ext
  rfl

theorem drop_length_append (l m : List Effect) : (l ++ m).drop l.length = m := by
  simp

theorem readFile_ok (self : FilesReader) (url : QUrl) (w : World) (b : QByteArray)
    (h : w.fs (w.urlToLocalFileOrQrc url) = .ok b) :
    self.readFile url w = (b, w) := by
  simp [FilesReader.readFile, QFile.open, QFile.new, QFile.readAll, h]

theorem readFile_error (self : FilesReader) (url : QUrl) (w : World) (e : QString)
    (h : w.fs (w.urlToLocalFileOrQrc url) = .error e) :
    self.readFile url w =
      ([], w.emit (.error ("Could not open file. '" ++ e ++ "'"))) := by
  simp [FilesReader.readFile, QFile.open, QFile.new, h, arg_template]

theorem emitted_ok (self : FilesReader) (url : QUrl) (w : World) (b : QByteArray)
    (h : w.fs (w.urlToLocalFileOrQrc url) = .ok b) :
    self.emitted url w = [] := by
  simp [FilesReader.emitted, readFile_ok self url w b h]

theorem emitted_error (self : FilesReader) (url : QUrl) (w : World) (e : QString)
    (h : w.fs (w.urlToLocalFileOrQrc url) = .error e) :
    self.emitted url w = [.error ("Could not open file. '" ++ e ++ "'")] := by
  simp [FilesReader.emitted, readFile_error self url w e h, World.emit]

theorem template_ne_empty (e : QString) : "Could not open file. '" ++ e ++ "'" ≠ "" := by
  intro h
  have hl := congrArg String.length h
  simp only [String.length_append] at hl
  have h1 : "Could not open file. '".length = 22 := by decide
  have h0 : "".length = 0 := by decide
  omega


theorem readFile_cases (self : FilesReader) (url : QUrl) (w : World) :
    (∃ b, w.fs (w.urlToLocalFileOrQrc url) = .ok b ∧ self.readFile url w = (b, w)
        ∧ self.emitted url w = []) ∨
    (∃ e, w.fs (w.urlToLocalFileOrQrc url) = .error e
        ∧ self.readFile url w = ([], w.emit (.error ("Could not open file. '" ++ e ++ "'")))
        ∧ self.emitted url w = [.error ("Could not open file. '" ++ e ++ "'")]) := by
  cases h : w.fs (w.urlToLocalFileOrQrc url) with
  | ok b => exact Or.inl ⟨b, rfl, readFile_ok self url w b h, emitted_ok self url w b h⟩
  | error e => exact Or.inr ⟨e, rfl, readFile_error self url w e h, emitted_error self url w e h⟩

theorem open_isOpen_false_iff (path : QString) (fs : FileSystem) :
    ((QFile.new path).open fs).isOpen = false ↔ ∃ e, fs path = .error e := by
  cases h : fs path <;> simp [QFile.open, QFile.new, h]

theorem exitRequest_error (text : QString) : exitRequest [.error text] = none := by
  simp [exitRequest]

theorem observer_eq (url : QUrl) (obj : Option QObject) (objUrl : QUrl) :
    observer url obj objUrl = if obj = none ∧ objUrl = url then [.exit (-1)] else [] := by
  unfold observer
  cases obj with
  | some o => simp
  | none =>
    by_cases h : url = objUrl
    · subst h; simp
    · have h2 : ¬ objUrl = url := fun h3 => h h3.symm
      simp [h, h2]

theorem eventLoop_steps (q : List Event) (s : Process) :
    (eventLoop q s).2.steps = s.steps := by
  induction q generalizing s with
  | nil => rfl
  | cons ev rest ih =>
    unfold eventLoop
    simp only
    split
    · rfl
    · rw [ih]

theorem eventLoop_observers (q : List Event) (s : Process) :
    (eventLoop q s).2.observers = s.observers := by
  induction q generalizing s with
  | nil => rfl
  | cons ev rest ih =>
    unfold eventLoop
    simp only
    split
    · rfl
    · rw [ih]

theorem eventLoop_no_exit (q : List Event) (s : Process)
    (h : ∀ ev ∈ q, exitRequest ev.handle = none) : (eventLoop q s).1 = none := by
  induction q generalizing s with
  | nil => rfl
  | cons ev rest ih =>
    unfold eventLoop
    simp only
    have hev := h ev (List.mem_cons_self _ _)
    rw [hev]
    exact ih _ (fun e he => h e (List.mem_cons_of_mem _ he))

theorem main_steps (p : Platform) :
    (main p).2.steps =
      [Step.registerTypes]
        ++ (if p.qtVersion < QT_VERSION_CHECK 6 0 0 then [Step.enableHighDpiScaling] else [])
        ++ [.constructApplication, .constructReader, .constructEngine, .connectObserver,
            .setContextProperty "fileReader", .load ⟨"qrc:/main.qml"⟩, .exec] := by
  unfold main Process.exec
  rw [eventLoop_steps]
  split <;> rfl

theorem main_eq (p : Platform) :
    ∃ s : Process, s.effects = [] ∧ s.handled = 0 ∧
      main p = eventLoop
        (Event.call (observer ⟨"qrc:/main.qml"⟩) (p.instantiate ⟨"qrc:/main.qml"⟩)
          ⟨"qrc:/main.qml"⟩ :: p.incoming) s := by
  unfold main Process.exec
  split <;> exact ⟨_, rfl, rfl, rfl⟩

/-! ## The claims -/

/-- C1: whenever the locator resolves to a path that opens for reading with
contents `b`, `readFile` returns exactly `b` (same length, same bytes in the
same order), leaves the world as it was and emits no notification. -/
theorem readFile_returns_contents (self : FilesReader) (url : QUrl) (w : World)
    (b : QByteArray) (h : w.fs (w.urlToLocalFileOrQrc url) = .ok b) :
    (self.readFile url w).1 = b ∧ (self.readFile url w).1.length = b.length
      ∧ (self.readFile url w).2 = w ∧ self.emitted url w = [] := by
  rw [readFile_ok self url w b h]
  exact ⟨rfl, rfl, rfl, emitted_ok self url w b h⟩

theorem readFile_returns_contents_witness :
    sampleWorld.fs (sampleWorld.urlToLocalFileOrQrc ⟨"file:///tmp/hello.txt"⟩)
        = .ok [0x68, 0x65, 0x6C, 0x6C, 0x6F]
      ∧ (sampleReader.readFile ⟨"file:///tmp/hello.txt"⟩ sampleWorld).1
        = [0x68, 0x65, 0x6C, 0x6C, 0x6F]
      ∧ sampleReader.emitted ⟨"file:///tmp/hello.txt"⟩ sampleWorld = [] :=
  have h := readFile_returns_contents sampleReader ⟨"file:///tmp/hello.txt"⟩ sampleWorld
    [0x68, 0x65, 0x6C, 0x6C, 0x6F] rfl
  ⟨rfl, h.1, h.2.2.2⟩

/-- C2: whenever the resolved path cannot be opened for reading, `readFile`
returns the empty buffer and emits exactly one error notification, whose text
is not empty. -/
theorem readFile_failure_one_notification (self : FilesReader) (url : QUrl) (w : World)
    (e : QString) (h : w.fs (w.urlToLocalFileOrQrc url) = .error e) :
    (self.readFile url w).1 = [] ∧ (self.emitted url w).length = 1
      ∧ ∃ text, self.emitted url w = [.error text] ∧ text ≠ ""
          ∧ (self.readFile url w).2 = w.emit (.error text) := by
  refine ⟨?_, ?_, "Could not open file. '" ++ e ++ "'", ?_, template_ne_empty e, ?_⟩
  · rw [readFile_error self url w e h]
  · rw [emitted_error self url w e h]; rfl
  · exact emitted_error self url w e h
  · rw [readFile_error self url w e h]

theorem readFile_failure_one_notification_witness :
    sampleWorld.fs (sampleWorld.urlToLocalFileOrQrc ⟨"file:///root/secret"⟩)
        = .error "Permission denied"
      ∧ (sampleReader.readFile ⟨"file:///root/secret"⟩ sampleWorld).1 = []
      ∧ (sampleReader.emitted ⟨"file:///root/secret"⟩ sampleWorld).length = 1 :=
  have h := readFile_failure_one_notification sampleReader ⟨"file:///root/secret"⟩ sampleWorld
    "Permission denied" rfl
  ⟨rfl, h.1, h.2.1⟩

/-- C3: a locator that resolves to a readable file of zero bytes gives the
empty buffer and no notification; a failed read of any locator gives the same
return value, and the two calls differ in the notifications they emit. -/
theorem readFile_empty_file (self : FilesReader) (url : QUrl) (w : World)
    (h : w.fs (w.urlToLocalFileOrQrc url) = .ok []) :
    (self.readFile url w).1 = [] ∧ self.emitted url w = [] ∧
      ∀ (failing : QUrl) (e : QString), w.fs (w.urlToLocalFileOrQrc failing) = .error e →
        (self.readFile failing w).1 = (self.readFile url w).1
          ∧ self.emitted failing w ≠ self.emitted url w := by
  refine ⟨by rw [readFile_ok self url w [] h], emitted_ok self url w [] h, ?_⟩
  intro failing e he
  rw [readFile_ok self url w [] h, readFile_error self failing w e he,
    emitted_ok self url w [] h, emitted_error self failing w e he]
  exact ⟨rfl, by simp⟩

theorem readFile_empty_file_witness :
    sampleWorld.fs (sampleWorld.urlToLocalFileOrQrc ⟨"file:///tmp/empty"⟩) = .ok []
      ∧ (sampleReader.readFile ⟨"file:///tmp/empty"⟩ sampleWorld).1 = []
      ∧ sampleReader.emitted ⟨"file:///tmp/empty"⟩ sampleWorld = []
      ∧ (sampleReader.readFile ⟨"file:///nonexistent/file.txt"⟩ sampleWorld).1
          = (sampleReader.readFile ⟨"file:///tmp/empty"⟩ sampleWorld).1
      ∧ sampleReader.emitted ⟨"file:///nonexistent/file.txt"⟩ sampleWorld
          ≠ sampleReader.emitted ⟨"file:///tmp/empty"⟩ sampleWorld :=
  have h := readFile_empty_file sampleReader ⟨"file:///tmp/empty"⟩ sampleWorld rfl
  have h2 := h.2.2 ⟨"file:///nonexistent/file.txt"⟩ "No such file or directory" rfl
  ⟨rfl, h.1, h.2.1, h2.1, h2.2⟩

/-- C4: when the open attempt fails with the description `e`, the one
notification emitted carries the template `Could not open file. '%1'` with
`%1` replaced by `e`; in particular `e` is a substring of its text. -/
theorem readFile_notification_text (self : FilesReader) (url : QUrl) (w : World)
    (e : QString) (h : w.fs (w.urlToLocalFileOrQrc url) = .error e) :
    self.emitted url w = [.error (QString.arg (tr "Could not open file. '%1'") e)]
      ∧ QString.arg (tr "Could not open file. '%1'") e = "Could not open file. '" ++ e ++ "'"
      ∧ ∃ before after : QString,
          QString.arg (tr "Could not open file. '%1'") e = before ++ e ++ after := by
  refine ⟨?_, arg_template e, "Could not open file. '", "'", arg_template e⟩
  rw [emitted_error self url w e h, arg_template]

theorem readFile_notification_text_witness :
    sampleWorld.fs (sampleWorld.urlToLocalFileOrQrc ⟨"file:///nonexistent/file.txt"⟩)
        = .error "No such file or directory"
      ∧ sampleReader.emitted ⟨"file:///nonexistent/file.txt"⟩ sampleWorld
        = [.error "Could not open file. 'No such file or directory'"] :=
  have h := readFile_notification_text sampleReader ⟨"file:///nonexistent/file.txt"⟩
    sampleWorld "No such file or directory" rfl
  ⟨rfl, h.1.trans (by decide)⟩

/-- C5: when the UI definition `qrc:/main.qml` cannot be instantiated, `main`
returns exactly -1, and the report of the failure is the only event the event
loop delivers: every event that arrives afterwards stays undelivered. -/
theorem main_returns_minus_one_on_load_failure (p : Platform)
    (h : p.instantiate ⟨"qrc:/main.qml"⟩ = none) :
    (main p).1 = some (-1) ∧ (main p).2.handled = 1 ∧ (main p).2.queue = p.incoming
      ∧ (main p).2.effects = [.exit (-1)] := by
  obtain ⟨s, he, hh, hm⟩ := main_eq p
  rw [hm, h]
  unfold eventLoop
  simp [Event.handle, observer, exitRequest, he, hh]

theorem main_returns_minus_one_on_load_failure_witness :
    failingPlatform.instantiate ⟨"qrc:/main.qml"⟩ = none
      ∧ (main failingPlatform).1 = some (-1)
      ∧ (main failingPlatform).2.handled = 1
      ∧ (main failingPlatform).2.queue.length = 2
      ∧ (main failingPlatform).2.effects = [.exit (-1)] :=
  have h := main_returns_minus_one_on_load_failure failingPlatform rfl
  ⟨rfl, h.1, h.2.1, by rw [h.2.2.1]; rfl, h.2.2.2⟩

/-- C6: in a world whose locator resolution is that of the UI runtime, every
embedded-resource locator (scheme `qrc`, no authority) is resolved to the
embedded resource path, a colon followed by the path of the locator, and that
is the file `readFile` opens.  When the resource at that path exists, its full
contents are returned, the world stays as it was and nothing is emitted; when
it is absent, the empty buffer is returned and exactly one error notification
is emitted. -/
theorem readFile_embedded_resource (self : FilesReader) (url : QUrl) (w : World)
    (hq : w.urlToLocalFileOrQrc = QQmlFile.urlToLocalFileOrQrc)
    (hs : url.scheme = "qrc") (ha : url.authority = "") :
    w.urlToLocalFileOrQrc url = ":" ++ url.path
      ∧ ((QFile.new (w.urlToLocalFileOrQrc url)).open w.fs).fileName = ":" ++ url.path
      ∧ (∀ b, w.fs (":" ++ url.path) = .ok b →
          (self.readFile url w).1 = b ∧ (self.readFile url w).2 = w
            ∧ self.emitted url w = [])
      ∧ (∀ e, w.fs (":" ++ url.path) = .error e →
          (self.readFile url w).1 = [] ∧ (self.emitted url w).length = 1
            ∧ ∃ text, self.emitted url w = [.error text]) := by
  have hp : w.urlToLocalFileOrQrc url = ":" ++ url.path := by
    rw [hq]
    simp [QQmlFile.urlToLocalFileOrQrc, hs, ha]
  refine ⟨hp, ?_, ?_, ?_⟩
  · rw [hp]
    unfold QFile.open QFile.new
    split <;> rfl
  · intro b hb
    have h : w.fs (w.urlToLocalFileOrQrc url) = .ok b := by rw [hp]; exact hb
    rw [readFile_ok self url w b h]
    exact ⟨rfl, rfl, emitted_ok self url w b h⟩
  · intro e he
    have h : w.fs (w.urlToLocalFileOrQrc url) = .error e := by rw [hp]; exact he
    rw [readFile_error self url w e h, emitted_error self url w e h]
    exact ⟨rfl, rfl, _, rfl⟩

theorem readFile_embedded_resource_witness :
    ((⟨"qrc:/main.qml"⟩ : QUrl).scheme = "qrc" ∧ (⟨"qrc:/main.qml"⟩ : QUrl).authority = ""
      ∧ qtWorld.urlToLocalFileOrQrc ⟨"qrc:/main.qml"⟩ = ":/main.qml"
      ∧ (sampleReader.readFile ⟨"qrc:/main.qml"⟩ qtWorld).1
          = [0x49, 0x74, 0x65, 0x6D, 0x7B, 0x7D]
      ∧ sampleReader.emitted ⟨"qrc:/main.qml"⟩ qtWorld = [])
    ∧ ((⟨"qrc:/absent.qml"⟩ : QUrl).scheme = "qrc"
      ∧ (⟨"qrc:/absent.qml"⟩ : QUrl).authority = ""
      ∧ qtWorld.urlToLocalFileOrQrc ⟨"qrc:/absent.qml"⟩ = ":/absent.qml"
      ∧ (sampleReader.readFile ⟨"qrc:/absent.qml"⟩ qtWorld).1 = []
      ∧ (sampleReader.emitted ⟨"qrc:/absent.qml"⟩ qtWorld).length = 1) :=
  have h1 := readFile_embedded_resource sampleReader ⟨"qrc:/main.qml"⟩ qtWorld rfl
    (by decide) (by decide)
  have h2 := readFile_embedded_resource sampleReader ⟨"qrc:/absent.qml"⟩ qtWorld rfl
    (by decide) (by decide)
  have r1 := h1.2.2.1 [0x49, 0x74, 0x65, 0x6D, 0x7B, 0x7D] rfl
  have r2 := h2.2.2.2 "No such file or directory" rfl
  ⟨⟨by decide, by decide, h1.1.trans (by decide), r1.1, r1.2.2⟩,
   ⟨by decide, by decide, h2.1.trans (by decide), r2.1, r2.2.1⟩⟩

/-- C7: a call of `readFile` changes nothing but the list of effects, to which
it appends its notifications; its outcome (returned buffer and emitted
notifications) does not depend on the reader object nor on the effects
produced before, only on the locator, the resolution and the file system; and
a second call with the same locator gives the same outcome as the first. -/
theorem readFile_independent (self : FilesReader) (url : QUrl) (w : World) :
    (self.readFile url w).2 = { w with effects := w.effects ++ self.emitted url w }
      ∧ (self.readFile url w).2.fs = w.fs
      ∧ (self.readFile url w).2.urlToLocalFileOrQrc = w.urlToLocalFileOrQrc
      ∧ (∀ other : FilesReader, other.readFile url w = self.readFile url w)
      ∧ (∀ earlier : List Effect,
          (self.readFile url { w with effects := earlier }).1 = (self.readFile url w).1
            ∧ self.emitted url { w with effects := earlier } = self.emitted url w)
      ∧ (self.readFile url (self.readFile url w).2).1 = (self.readFile url w).1
      ∧ self.emitted url (self.readFile url w).2 = self.emitted url w := by
  have key : ∀ v : World, v.fs = w.fs → v.urlToLocalFileOrQrc = w.urlToLocalFileOrQrc →
      (self.readFile url v).1 = (self.readFile url w).1
        ∧ self.emitted url v = self.emitted url w := by
    intro v hfs hres
    rcases readFile_cases self url w with ⟨b, hb, hr, hem⟩ | ⟨e, he, hr, hem⟩
    · have hv : v.fs (v.urlToLocalFileOrQrc url) = .ok b := by rw [hfs, hres, hb]
      rw [readFile_ok self url v b hv, emitted_ok self url v b hv, hr, hem]
      exact ⟨rfl, rfl⟩
    · have hv : v.fs (v.urlToLocalFileOrQrc url) = .error e := by rw [hfs, hres, he]
      rw [readFile_error self url v e hv, emitted_error self url v e hv, hr, hem]
      exact ⟨rfl, rfl⟩
  have hworld : (self.readFile url w).2 = { w with effects := w.effects ++ self.emitted url w } := by
    rcases readFile_cases self url w with ⟨b, _, hr, hem⟩ | ⟨e, _, hr, hem⟩
    · rw [hr, hem]; simp
    · rw [hr, hem]; rfl
  have hfs : (self.readFile url w).2.fs = w.fs := by rw [hworld]
  have hres : (self.readFile url w).2.urlToLocalFileOrQrc = w.urlToLocalFileOrQrc := by
    rw [hworld]
  refine ⟨hworld, hfs, hres, fun other => rfl, fun earlier => key _ rfl rfl, ?_, ?_⟩
  · exact (key _ hfs hres).1
  · exact (key _ hfs hres).2

/-- C8: the observer registered by `main` requests exit, with status -1,
exactly when the reported object is null and the reported locator is
`qrc:/main.qml`; for every other report it does nothing; it is the only slot
`main` connects; a bootstrap whose definition loads and whose later events
request no exit never leaves the event loop; and a call of `readFile` never
requests exit. -/
theorem only_load_failure_is_fatal :
    (∀ (obj : Option QObject) (objUrl : QUrl),
        observer ⟨"qrc:/main.qml"⟩ obj objUrl = [.exit (-1)]
          ↔ (obj = none ∧ objUrl = ⟨"qrc:/main.qml"⟩))
      ∧ (∀ (obj : Option QObject) (objUrl : QUrl),
          ¬ (obj = none ∧ objUrl = ⟨"qrc:/main.qml"⟩) →
            observer ⟨"qrc:/main.qml"⟩ obj objUrl = []
              ∧ exitRequest (observer ⟨"qrc:/main.qml"⟩ obj objUrl) = none)
      ∧ (∀ p : Platform, (main p).2.observers = [observer ⟨"qrc:/main.qml"⟩])
      ∧ (∀ (p : Platform) (o : QObject), p.instantiate ⟨"qrc:/main.qml"⟩ = some o →
          (∀ ev ∈ p.incoming, exitRequest ev.handle = none) → (main p).1 = none)
      ∧ (∀ (self : FilesReader) (url : QUrl) (w : World),
          (∀ returnCode, Effect.exit returnCode ∉ self.emitted url w)
            ∧ exitRequest (self.emitted url w) = none) := by
  refine ⟨?_, ?_, ?_, ?_, ?_⟩
  · intro obj objUrl
    rw [observer_eq]
    by_cases h : obj = none ∧ objUrl = ⟨"qrc:/main.qml"⟩
    · simp [h]
    · simp [h]
  · intro obj objUrl h
    rw [observer_eq, if_neg h]
    exact ⟨rfl, rfl⟩
  · intro p
    unfold main Process.exec
    rw [eventLoop_observers]
    split <;> rfl
  · intro p o ho hin
    obtain ⟨s, _, _, hm⟩ := main_eq p
    rw [hm]
    apply eventLoop_no_exit
    intro ev hev
    rcases List.mem_cons.mp hev with h | h
    · subst h
      simp [Event.handle, observer, ho, exitRequest]
    · exact hin ev h
  · intro self url w
    rcases readFile_cases self url w with ⟨b, _, _, hem⟩ | ⟨e, _, _, hem⟩
    · rw [hem]
      exact ⟨fun _ => List.not_mem_nil _, rfl⟩
    · rw [hem]
      exact ⟨fun c => by simp, exitRequest_error _⟩

/-- C9 as stated fails: in the run of `main` on the working platform the UI
definition is not loaded before the observer is connected, so the steps are
not in the order the specification lists. -/
theorem main_not_in_spec_order :
    ¬ specOrder (main workingPlatform).2.steps
      ∧ ¬ Step.before (.load ⟨"qrc:/main.qml"⟩) .connectObserver (main workingPlatform).2.steps
      ∧ ¬ Step.before (.load ⟨"qrc:/main.qml"⟩) (.setContextProperty "fileReader")
          (main workingPlatform).2.steps := by
  decide

/-- C9 amended: on every platform `main` constructs the reader, then the
engine, then connects the observer, then publishes the reader as `fileReader`,
then loads `qrc:/main.qml`, then enters the event loop. -/
theorem main_in_code_order (p : Platform) :
    codeOrder (main p).2.steps
      ∧ (main p).2.steps =
          [Step.registerTypes]
            ++ (if p.qtVersion < QT_VERSION_CHECK 6 0 0 then [Step.enableHighDpiScaling] else [])
            ++ [.constructApplication, .constructReader, .constructEngine, .connectObserver,
                .setContextProperty "fileReader", .load ⟨"qrc:/main.qml"⟩, .exec] := by
  refine ⟨?_, main_steps p⟩
  rw [main_steps]
  split <;> decide

/-- C10: one call of `readFile` emits at most one notification; it emits one
exactly when the open attempt fails; and when the returned buffer is not
empty nothing was emitted. -/
theorem readFile_notification_discipline (self : FilesReader) (url : QUrl) (w : World) :
    (self.emitted url w).length ≤ 1
      ∧ ((self.emitted url w).length = 1
          ↔ ((QFile.new (w.urlToLocalFileOrQrc url)).open w.fs).isOpen = false)
      ∧ ((self.emitted url w).length = 1 ↔ ∃ e, w.fs (w.urlToLocalFileOrQrc url) = .error e)
      ∧ ((self.readFile url w).1 ≠ [] → self.emitted url w = []) := by
  rw [open_isOpen_false_iff]
  rcases readFile_cases self url w with ⟨b, hb, hr, hem⟩ | ⟨e, he, hr, hem⟩
  · rw [hem, hb]
    simp
  · rw [hem, hr, he]
    simp

end Cyberpixie
